import Mathlib

/-!
Verification of the Deadline text-adventure core (entity model, scope
resolver, parser, disambiguator) against its natural-language
specification.  The definitions below are shallow embeddings of the
Python source files under `src/deadline/`:

* `src/deadline/core/flags.py` — the `ObjectFlag` bitset,
* `src/deadline/core/game_object.py` — `GameObject` (flags, containment,
  visibility, accessibility) and `Room.is_dark`,
* `src/deadline/world/world_manager.py` — `WorldManager.get_visible_objects`,
* `src/deadline/parser/parser.py` — `GameParser` (tokenize, classify,
  pattern match, fallback parse, `parse`),
* `src/deadline/parser/disambiguator.py` — `Disambiguator`.

Python objects are identified by their id string; the mutable heap is a
function `World : String → Obj`.  Mutation is explicit state passing.
Machine integers do not occur; the flag bitset is a `Nat` bitmask exactly
as Python's `enum.Flag` uses one.
-/

-- The ObjectFlag bit values, as produced by `enum.auto()` in
-- `core/flags.py` (TAKEABLE = 1, CONTAINER = 2, ..., SEARCHED = 2^27).
namespace ObjectFlag

def TAKEABLE : Nat := 1
def CONTAINER : Nat := 2
def OPEN : Nat := 4
def LOCKED : Nat := 8
def LIGHT : Nat := 16
def READABLE : Nat := 32
def WEARABLE : Nat := 64
def EDIBLE : Nat := 128
def DRINKABLE : Nat := 256
def WEAPON : Nat := 512
def TOOL : Nat := 1024
def VEHICLE : Nat := 2048
def SURFACE : Nat := 4096
def TRANSPARENT : Nat := 8192
def INVISIBLE : Nat := 16384
def VISITED : Nat := 32768
def SACRED : Nat := 65536
def FEMALE : Nat := 131072
def PLURAL : Nat := 262144
def NARTICLE : Nat := 524288
def PROPER : Nat := 1048576
def TOUCHABLE : Nat := 2097152
def PERSON : Nat := 4194304
def ON : Nat := 8388608
def EVIDENCE : Nat := 16777216
def HIDDEN : Nat := 33554432
def FIXED : Nat := 67108864
def SEARCHED : Nat := 134217728

/-- The canonical bit universe of the 28-member `ObjectFlag` enum; Python's
`~flag` on an `enum.Flag` complements within this universe. -/
def ALL : Nat := 2 ^ 28 - 1

end ObjectFlag

/-- One `GameObject` of `core/game_object.py`, with the fields the core
claims depend on.  `location`/`contents` hold object ids.  `isRoom` models
`isinstance(x, Room)`; `light_needed` is the `Room.light_needed` field. -/
structure Obj where
  flags : Nat := 0
  location : Option String := none
  contents : List String := []
  name : String := ""
  synonyms : List String := []
  adjectives : List String := []
  properties : List (String × String) := []
  isRoom : Bool := false
  light_needed : Bool := false
deriving Repr, DecidableEq

/-- The mutable object heap, keyed by object id. -/
def World : Type := String → Obj

/-- Write one object back into the heap. -/
def updateObj (w : World) (x : String) (o : Obj) : World :=
  fun y => if y = x then o else w y

/-- `GameObject.has_flag`: `bool(self.flags & flag)`. -/
def has_flag (o : Obj) (flag : Nat) : Bool :=
  o.flags &&& flag != 0

/-- `GameObject.set_flag`: `self.flags |= flag`. -/
def set_flag (o : Obj) (flag : Nat) : Obj :=
  { o with flags := o.flags ||| flag }

/-- `GameObject.clear_flag`: `self.flags &= ~flag`, where `~` complements
within the enum's canonical bit universe. -/
def clear_flag (o : Obj) (flag : Nat) : Obj :=
  { o with flags := o.flags &&& (ObjectFlag.ALL ^^^ flag) }

/-- First statement of `GameObject.move_to`: `if self.location and self in
self.location.contents: self.location.contents.remove(self)` — `remove`
drops the first occurrence. -/
def removeFromOld (w : World) (self : String) : World :=
  match (w self).location with
  | some L =>
      if self ∈ (w L).contents then
        updateObj w L { w L with contents := (w L).contents.erase self }
      else w
  | none => w

/-- Second statement of `GameObject.move_to`: `self.location = new_location`. -/
def setLoc (w : World) (self : String) (new_location : Option String) : World :=
  updateObj w self { w self with location := new_location }

/-- Third statement of `GameObject.move_to`: `if new_location and self not
in new_location.contents: new_location.contents.append(self)`. -/
def addToNew (w : World) (self : String) : Option String → World
  | some N =>
      if self ∈ (w N).contents then w
      else updateObj w N { w N with contents := (w N).contents ++ [self] }
  | none => w

/-- `GameObject.move_to(new_location)` from `core/game_object.py`: the
three statements above in sequence. -/
def move_to (w : World) (self : String) (new_location : Option String) : World :=
  addToNew (setLoc (removeFromOld w self) self new_location) self new_location

/-- Iterate the `location` chain `n` times (the walk Python performs in
`is_in` / `is_accessible`); `none` when the chain runs out first. -/
def locIter (w : World) : Nat → String → Option String
  | 0, x => some x
  | n + 1, x =>
      match (w x).location with
      | some l => locIter w n l
      | none => none


/-- `GameObject.is_visible`: false when flagged INVISIBLE, false when the
immediate owner is a container that is neither open nor transparent. -/
def is_visible (w : World) (x : String) : Bool :=
  if has_flag (w x) ObjectFlag.INVISIBLE then false
  else
    match (w x).location with
    | some l =>
        if has_flag (w l) ObjectFlag.CONTAINER &&
           !(has_flag (w l) ObjectFlag.OPEN || has_flag (w l) ObjectFlag.TRANSPARENT) then
          false
        else true
    | none => true

/-- `GameObject.is_accessible`: walk the ownership chain; false when some
ancestor is a closed container.  The Python `while` loop assumes an
acyclic chain; `fuel` bounds the walk (it exceeds the chain length on
every world the program builds). -/
def is_accessible (fuel : Nat) (w : World) (x : String) : Bool :=
  match fuel with
  | 0 => true
  | n + 1 =>
      match (w x).location with
      | some cur =>
          if has_flag (w cur) ObjectFlag.CONTAINER &&
             !has_flag (w cur) ObjectFlag.OPEN then
            false
          else is_accessible n w cur
      | none => true

/-- `GameObject.can_take`: TAKEABLE and not SACRED. -/
def can_take (o : Obj) : Bool :=
  has_flag o ObjectFlag.TAKEABLE && !has_flag o ObjectFlag.SACRED

/-- `GameObject.get_all_contents(recursive=True)`: contents followed by
each child's recursive contents.  `fuel` bounds the recursion depth the
Python version performs on the (assumed acyclic) containment tree. -/
def get_all_contents (fuel : Nat) (w : World) (x : String) : List String :=
  match fuel with
  | 0 => []
  | n + 1 => (w x).contents ++ (w x).contents.flatMap (get_all_contents n w)

/-- `Room.is_dark`: false unless `light_needed`; dark when no entity in
the recursive contents is both LIGHT and ON. -/
def is_dark (fuel : Nat) (w : World) (r : String) : Bool :=
  if !(w r).light_needed then false
  else
    !(get_all_contents fuel w r).any fun o =>
      has_flag (w o) ObjectFlag.LIGHT && has_flag (w o) ObjectFlag.ON

/-- `WorldManager.get_current_room`: the player's location when it is a
`Room`, else nothing. -/
def get_current_room (w : World) : Option String :=
  match (w "player").location with
  | some l => if (w l).isRoom then some l else none
  | none => none

/-- Per-object contribution of the `get_visible_objects` room loop: a
visible non-player object, followed by the visible contents of an
open-or-transparent container. -/
def visible_entry (w : World) (obj : String) : List String :=
  if is_visible w obj && obj != "player" then
    obj ::
      (if has_flag (w obj) ObjectFlag.CONTAINER &&
          (has_flag (w obj) ObjectFlag.OPEN ||
           has_flag (w obj) ObjectFlag.TRANSPARENT) then
         (w obj).contents.filter fun inner => is_visible w inner
       else [])
  else []

/-- `WorldManager.get_visible_objects`, list portion: the room-loop
contributions in room-contents order, then the player's contents
appended unfiltered. -/
def get_visible_objects (w : World) : List String :=
  (match get_current_room w with
   | some r => (w r).contents.flatMap (visible_entry w)
   | none => []) ++ (w "player").contents

/-- One iteration of the `get_visible_objects` room loop with the heap
threaded through explicitly (the loop body only reads it). -/
def visitObj (st : List String × World) (obj : String) : List String × World :=
  if is_visible st.2 obj && obj != "player" then
    let st1 := (st.1 ++ [obj], st.2)
    if has_flag (st1.2 obj) ObjectFlag.CONTAINER &&
       (has_flag (st1.2 obj) ObjectFlag.OPEN ||
        has_flag (st1.2 obj) ObjectFlag.TRANSPARENT) then
      (st1.2 obj).contents.foldl
        (fun st2 inner =>
          if is_visible st2.2 inner then (st2.1 ++ [inner], st2.2) else st2)
        st1
    else st1
  else st

/-- `WorldManager.get_visible_objects` as a state transformer: the method
performs no writes, which the explicit state threading makes checkable. -/
def get_visible_objects_st (w : World) : List String × World :=
  let start :=
    match get_current_room w with
    | some r => (w r).contents.foldl visitObj ([], w)
    | none => ([], w)
  (start.1 ++ (start.2 "player").contents, start.2)

/-- Overwrite the `light_needed` declaration of an entity, leaving every
other field alone. -/
def setLightNeeded (w : World) (r : String) (b : Bool) : World :=
  updateObj w r { w r with light_needed := b }

/-! ## String helpers with Python semantics

The parser manipulates raw strings (`str.lower`, `str.strip`,
`str.split()`, `str.replace`, `str.isdigit`).  These are re-implemented
structurally on `List Char` so they compute inside the kernel. -/

/-- Python `str.lower()` (inputs here are ASCII). -/
def pyLower (s : String) : String :=
  ⟨s.data.map Char.toLower⟩

/-- Leading- and trailing-whitespace trim on a character list. -/
def trimChars (l : List Char) : List Char :=
  ((l.dropWhile Char.isWhitespace).reverse.dropWhile Char.isWhitespace).reverse

/-- Python `str.strip()`. -/
def pyStrip (s : String) : String :=
  ⟨trimChars s.data⟩

/-- Accumulator pass behind `pySplitWs`: split at whitespace runs,
dropping empty pieces, as Python `str.split()` does. -/
def splitWsAux : List Char → List Char → List String
  | [], acc => if acc.isEmpty then [] else [⟨acc.reverse⟩]
  | c :: cs, acc =>
      if c.isWhitespace then
        if acc.isEmpty then splitWsAux cs []
        else (⟨acc.reverse⟩ : String) :: splitWsAux cs []
      else splitWsAux cs (c :: acc)

/-- Python `str.split()` with no argument. -/
def pySplitWs (s : String) : List String :=
  splitWsAux s.data []

/-- Replace every occurrence of one character by a character sequence
(Python `str.replace` with a single-character pattern). -/
def replaceCharWith (c : Char) (rep : List Char) (l : List Char) : List Char :=
  l.flatMap fun ch => if ch = c then rep else [ch]

/-- Python `str.replace(old, new, 1)`: rewrite the first occurrence only. -/
def replaceFirstAux (pat rep : List Char) : List Char → List Char
  | [] => []
  | c :: cs =>
      if pat.isPrefixOf (c :: cs) then rep ++ (c :: cs).drop pat.length
      else c :: replaceFirstAux pat rep cs

/-- String wrapper for `replaceFirstAux`. -/
def replaceFirst (s pat rep : String) : String :=
  ⟨replaceFirstAux pat.data rep.data s.data⟩

/-- Python `str.isdigit()` (false on the empty string). -/
def pyIsDigit (s : String) : Bool :=
  !s.data.isEmpty && s.data.all Char.isDigit

/-! ## Parser data model (`parser/parser.py`) -/

/-- Word types of the vocabulary (`WordType` enum). -/
inductive WordType where
  | VERB
  | NOUN
  | ADJECTIVE
  | PREPOSITION
  | ARTICLE
  | CONJUNCTION
  | DIRECTION
  | NUMBER
  | SPECIAL
  | UNKNOWN
deriving Repr, DecidableEq

/-- A parsed token (`Token` dataclass). -/
structure Token where
  text : String
  word_type : Option WordType := none
  canonical_form : Option String := none
  object_ids : List String := []
deriving Repr, DecidableEq

/-- Result of parsing a command (`ParseResult` dataclass). -/
structure ParseResult where
  is_valid : Bool
  verb : Option String := none
  direct_object : Option String := none
  indirect_object : Option String := none
  preposition : Option String := none
  tokens : List Token := []
  error_message : Option String := none
  ambiguous_objects : List String := []
  raw_input : String := ""
deriving Repr, DecidableEq

/-- A vocabulary entry (`VocabularyEntry` dataclass). -/
structure VocabularyEntry where
  word : String
  word_type : WordType
  canonical : Option String := none
  objects : List String := []
deriving Repr, DecidableEq

/-- A syntax pattern (`SyntaxPattern` dataclass; the compiled regex field
is never consulted by `_try_pattern_match` and is omitted). -/
structure SyntaxPattern where
  pattern : String
  verb : String
  slots : List String
  prepositions : List String := []
deriving Repr, DecidableEq

/-- The mutable portion of `GameParser`: the vocabulary table (a word can
map to several entries; an absent word maps to `[]`), the registered
syntax patterns, and the command history used for "again". -/
structure ParserState where
  vocabulary_entries : String → List VocabularyEntry
  syntax_patterns : List SyntaxPattern
  last_command : Option String := none
  last_parse_result : Option ParseResult := none
  current_context : Option String := none

/-- Articles dropped by the tokenizer (`self.articles`). -/
def articles : List String := ["a", "an", "the", "some"]

/-- Standard prepositions (`self.prepositions`). -/
def prepositions : List String :=
  ["in", "on", "at", "to", "with", "from", "into",
   "onto", "under", "behind", "about", "for", "through",
   "across", "over", "around", "near", "beside", "between"]

/-- Direction abbreviation map (`self.directions`). -/
def directions : List (String × String) :=
  [("n", "north"), ("s", "south"), ("e", "east"), ("w", "west"),
   ("ne", "northeast"), ("nw", "northwest"),
   ("se", "southeast"), ("sw", "southwest"),
   ("u", "up"), ("d", "down"),
   ("in", "enter"), ("out", "exit")]

/-- Full direction names (`self.direction_words`). -/
def direction_words : List String :=
  ["north", "south", "east", "west",
   "northeast", "northwest", "southeast", "southwest",
   "up", "down", "enter", "exit", "in", "out"]

/-- Command shortcuts (`self.shortcuts`). -/
def shortcuts : List (String × String) :=
  [("i", "inventory"), ("l", "look"), ("x", "examine"), ("z", "wait"),
   ("g", "again"), ("q", "quit"),
   ("n", "north"), ("s", "south"), ("e", "east"), ("w", "west")]

/-- Special meta-commands (`self.meta_commands`). -/
def meta_commands : List String :=
  ["save", "restore", "load", "quit", "restart",
   "score", "inventory", "help", "about", "verbose",
   "brief", "superbrief", "version", "transcript"]

/-- The character clean-up pass of `GameParser._tokenize`: space out
commas and periods, delete the other punctuation characters. -/
def tokenizeClean (s : String) : List Char :=
  replaceCharWith (Char.ofNat 39) []
    (replaceCharWith '"' []
      (replaceCharWith '?' []
        (replaceCharWith '!' []
          (replaceCharWith '.' [' ', '.', ' ']
            (replaceCharWith ',' [' ', ',', ' '] s.data)))))

/-- The word loop of `GameParser._tokenize`: drop an article when the
following word is not a preposition, drop bare separator punctuation,
lowercase everything else into tokens.  (The `skip_next` variable of the
source is never set and has no effect.) -/
def tokenizeWords : List String → List Token
  | [] => []
  | word :: rest =>
      let wl := pyLower word
      let dropArticle :=
        articles.contains wl &&
          (match rest with
           | next :: _ => !(prepositions.contains (pyLower next))
           | [] => false)
      if dropArticle then
        tokenizeWords rest
      else if word = "," ∨ word = "." then
        tokenizeWords rest
      else
        { text := wl } :: tokenizeWords rest

/-- `GameParser._tokenize`. -/
def tokenize (s : String) : List Token :=
  tokenizeWords (pySplitWs ⟨tokenizeClean s⟩)

/-- One token of `GameParser._identify_word_types`: vocabulary first
(first entry wins), then the fallback chain direction-abbreviation →
direction word → preposition → number → meta-command → UNKNOWN. -/
def classifyToken (st : ParserState) (t : Token) : Token :=
  match st.vocabulary_entries t.text with
  | entry :: _ =>
      { t with word_type := some entry.word_type,
               canonical_form := entry.canonical,
               object_ids := entry.objects }
  | [] =>
      match directions.lookup t.text with
      | some canon =>
          { t with word_type := some WordType.DIRECTION, canonical_form := some canon }
      | none =>
          if t.text ∈ direction_words then
            { t with word_type := some WordType.DIRECTION, canonical_form := some t.text }
          else if t.text ∈ prepositions then
            { t with word_type := some WordType.PREPOSITION, canonical_form := some t.text }
          else if pyIsDigit t.text then
            { t with word_type := some WordType.NUMBER, canonical_form := some t.text }
          else if t.text ∈ meta_commands then
            { t with word_type := some WordType.VERB, canonical_form := some t.text }
          else
            { t with word_type := some WordType.UNKNOWN }

/-- `GameParser._identify_word_types`. -/
def identify_word_types (st : ParserState) (ts : List Token) : List Token :=
  ts.map (classifyToken st)

/-- Space-joined concatenation, Python `' '.join`. -/
def joinSpace : List String → String
  | [] => ""
  | [x] => x
  | x :: xs => x ++ " " ++ joinSpace xs

/-- Scan loop of `GameParser._resolve_object`: collect adjectives and
generic words; a NOUN with attached object ids returns its first id at
once, a NOUN without ids is remembered (the last one wins). -/
def resolveAux (fallback : String) :
    List Token → List String → List String → Option String → String
  | [], adjs, words, noun =>
      match noun with
      | some n => n
      | none =>
          if !words.isEmpty then joinSpace words
          else if !adjs.isEmpty then joinSpace adjs
          else fallback
  | t :: ts, adjs, words, noun =>
      if t.word_type = some WordType.ADJECTIVE then
        resolveAux fallback ts (adjs ++ [t.text]) words noun
      else if t.word_type = some WordType.NOUN then
        match t.object_ids with
        | i :: _ => i
        | [] => resolveAux fallback ts adjs words (some t.text)
      else
        resolveAux fallback ts adjs (words ++ [t.text]) noun

/-- `GameParser._resolve_object`. -/
def resolve_object : List Token → Option String
  | [] => none
  | t :: ts => some (resolveAux t.text (t :: ts) [] [] none)

/-- The object-token scan shared by `_try_pattern_match` and
`_basic_parse`: walk forward collecting tokens until the first
PREPOSITION, returning the collected prefix and, when a preposition was
hit, that token together with everything after it. -/
def scanObjTokens : List Token → List Token × Option (Token × List Token)
  | [] => ([], none)
  | t :: ts =>
      if t.word_type = some WordType.PREPOSITION then ([], some (t, ts))
      else
        let r := scanObjTokens ts
        (t :: r.1, r.2)

/-- `GameParser._try_pattern_match`. -/
def try_pattern_match (ts : List Token) (pat : SyntaxPattern) : Option ParseResult :=
  match ts with
  | [] => none
  | t0 :: rest =>
      if t0.word_type ≠ some WordType.VERB ∧ pat.verb ≠ "*" then none
      else
        let verb := t0.canonical_form.getD t0.text
        if ts.length = 1 ∧ pat.slots.length = 0 then
          some { is_valid := true, verb := some verb, tokens := ts }
        else if 2 ≤ ts.length ∧ "direct_object" ∈ pat.slots then
          let scan := scanObjTokens rest
          if !scan.1.isEmpty then
            match scan.2 with
            | some (p, after) =>
                if !after.isEmpty then
                  some { is_valid := true, verb := some verb,
                         direct_object := resolve_object scan.1,
                         indirect_object := resolve_object after,
                         preposition := some p.text, tokens := ts }
                else
                  some { is_valid := true, verb := some verb,
                         direct_object := resolve_object scan.1, tokens := ts }
            | none =>
                some { is_valid := true, verb := some verb,
                       direct_object := resolve_object scan.1, tokens := ts }
          else none
        else none

/-- The in-loop special case of `GameParser._match_patterns`: a single
DIRECTION token becomes `go <canonical direction>` (note it sits inside
the `for pattern in self.syntax_patterns` loop, so it only fires when at
least one pattern is registered). -/
def direction_shortcut (ts : List Token) : Option ParseResult :=
  match ts with
  | [t] =>
      if t.word_type = some WordType.DIRECTION then
        some { is_valid := true, verb := some "go",
               direct_object := some (t.canonical_form.getD t.text), tokens := ts }
      else none
  | _ => none

/-- The pattern loop of `GameParser._match_patterns`. -/
def matchLoop (ts : List Token) : List SyntaxPattern → Option ParseResult
  | [] => none
  | pat :: rest =>
      match direction_shortcut ts with
      | some r => some r
      | none =>
          match try_pattern_match ts pat with
          | some r => some r
          | none => matchLoop ts rest

/-- `GameParser._match_patterns` (the unused `token_string` of the source
is dropped). -/
def match_patterns (st : ParserState) (ts : List Token) : ParseResult :=
  match matchLoop ts st.syntax_patterns with
  | some r => r
  | none =>
      { is_valid := false, tokens := ts,
        error_message := some "I don\x27t understand that command." }

/-- The verb search of `GameParser._basic_parse`: first token classified
VERB, with its index. -/
def findVerbAux : List Token → Nat → Option (Nat × Token)
  | [], _ => none
  | t :: ts, i =>
      if t.word_type = some WordType.VERB then some (i, t)
      else findVerbAux ts (i + 1)

/-- `GameParser._basic_parse`: optimistic fallback parse. -/
def basic_parse (ts : List Token) : ParseResult :=
  match ts with
  | [] =>
      { is_valid := false, tokens := ts,
        error_message := some "I don\x27t understand that." }
  | t0 :: _ =>
      let vi := (findVerbAux ts 0).getD (0, t0)
      let verb := vi.2.canonical_form.getD vi.2.text
      if vi.1 < ts.length - 1 then
        let scan := scanObjTokens (ts.drop (vi.1 + 1))
        let direct := if !scan.1.isEmpty then resolve_object scan.1 else none
        match scan.2 with
        | some (p, after) =>
            { is_valid := true, verb := some verb, direct_object := direct,
              indirect_object :=
                if !after.isEmpty then resolve_object after else none,
              preposition := some p.text, tokens := ts }
        | none =>
            { is_valid := true, verb := some verb, direct_object := direct,
              tokens := ts }
      else
        { is_valid := true, verb := some verb, tokens := ts }

/-- The shortcut-expansion step of `GameParser.parse`: when the first
word of the lowercased input is a shortcut, replace its first occurrence
in the input by the expansion. -/
def shortcut_expand (s : String) : String :=
  let first_word := (pySplitWs (pyLower s)).headD ""
  match shortcuts.lookup first_word with
  | some rep => replaceFirst s first_word rep
  | none => s

/-- `GameParser.parse`, the sole entry point, with the parser state
threaded explicitly.  (`_split_commands` is the identity in the source
and is inlined away.) -/
def parse (st0 : ParserState) (input_text : String) (context : Option String) :
    ParseResult × ParserState :=
  let st := { st0 with current_context := context }
  if input_text = "" ∨ pyStrip input_text = "" then
    ({ is_valid := false, error_message := some "Please enter a command.",
       raw_input := input_text }, st)
  else
    let original := pyStrip input_text
    let input_lower := pyLower original
    if input_lower = "g" ∨ input_lower = "again" then
      match st.last_parse_result with
      | some r =>
          if r.is_valid then (r, st)
          else ({ is_valid := false,
                  error_message := some "No previous command to repeat.",
                  raw_input := original }, st)
      | none =>
          ({ is_valid := false,
             error_message := some "No previous command to repeat.",
             raw_input := original }, st)
    else
      let tokens0 := tokenize (shortcut_expand original)
      if tokens0.isEmpty then
        ({ is_valid := false, error_message := some "I don\x27t understand that.",
           raw_input := original }, st)
      else
        let tokens := identify_word_types st tokens0
        let result0 := match_patterns st tokens
        let result1 := if !result0.is_valid then basic_parse tokens else result0
        let result := { result1 with raw_input := original }
        if result.is_valid then
          (result, { st with last_command := some original,
                             last_parse_result := some result })
        else (result, st)

/-! ## Disambiguator (`parser/disambiguator.py`) -/

/-- `Disambiguator._check_adjectives`. -/
def check_adjectives (o : Obj) (adjectives : List String) : Bool :=
  if adjectives.isEmpty then true
  else adjectives.all fun adj => (o.adjectives.map pyLower).contains (pyLower adj)

/-- Match test of the `_find_candidates` loop: name equality, else any
synonym equality, each gated by the adjective check. -/
def candMatch (w : World) (word : String) (adjectives : List String) (x : String) : Bool :=
  if pyLower (w x).name = pyLower word ∧ check_adjectives (w x) adjectives then true
  else (w x).synonyms.any fun syn =>
    pyLower syn = pyLower word && check_adjectives (w x) adjectives

/-- `Disambiguator._find_candidates`: the matching entities of
`get_visible_objects`, in scope order. -/
def find_candidates (w : World) (word : String) (adjectives : List String) : List String :=
  (get_visible_objects w).filter (candMatch w word adjectives)

/-- `Disambiguator._apply_context`: the context-specific filter, retained
only when it keeps at least one candidate. -/
def apply_context (w : World) (candidates : List String) (context : String) : List String :=
  let filtered :=
    if context = "take" then candidates.filter fun x => can_take (w x)
    else if context = "open" ∨ context = "close" then
      candidates.filter fun x => has_flag (w x) ObjectFlag.CONTAINER
    else if context = "read" then
      candidates.filter fun x => has_flag (w x) ObjectFlag.READABLE
    else if context = "talk" then
      candidates.filter fun x => has_flag (w x) ObjectFlag.PERSON
    else []
  if !filtered.isEmpty then filtered else candidates

/-- One narrowing step of `Disambiguator.disambiguate`: a singleton
filter result answers immediately, a non-empty one replaces the
candidate set, an empty one is ignored. -/
def narrow (cs f : List String) : Sum String (List String) :=
  match f with
  | [c] => Sum.inl c
  | [] => Sum.inr cs
  | _ => Sum.inr f

/-- `Disambiguator.disambiguate`.  `fuel` bounds the `is_accessible`
ancestor walk; `last` is the stored `last_disambiguation`, returned
updated (the method assigns it only when the final set stays ambiguous). -/
def disambiguate (fuel : Nat) (w : World) (word : String) (adjectives : List String)
    (context : Option String) (last : Option (List String)) :
    Option String × Option (List String) :=
  match find_candidates w word adjectives with
  | [] => (none, last)
  | [c] => (some c, last)
  | c0 :: c1 :: crest =>
      let candidates := c0 :: c1 :: crest
      match narrow candidates (candidates.filter (is_visible w)) with
      | Sum.inl c => (some c, last)
      | Sum.inr cs1 =>
          match narrow cs1 (cs1.filter (is_accessible fuel w)) with
          | Sum.inl c => (some c, last)
          | Sum.inr cs2 =>
              let step3 :=
                match context with
                | some ctx =>
                    if ctx ≠ "" then narrow cs2 (apply_context w cs2 ctx)
                    else Sum.inr cs2
                | none => Sum.inr cs2
              match step3 with
              | Sum.inl c => (some c, last)
              | Sum.inr cs3 =>
                  let step4 :=
                    match get_current_room w with
                    | some room =>
                        narrow cs3 (cs3.filter fun x => (w x).location = some room)
                    | none => Sum.inr cs3
                  match step4 with
                  | Sum.inl c => (some c, last)
                  | Sum.inr cs4 =>
                      if 1 < cs4.length then (none, some cs4)
                      else
                        match cs4 with
                        | [c] => (some c, last)
                        | _ => (none, last)

/-! ## Concrete fixtures used by witnesses and counterexamples -/

/-- An empty vocabulary table. -/
def noVocab : String → List VocabularyEntry := fun _ => []

/-- A vocabulary containing only the verb "take". -/
def takeVocab : String → List VocabularyEntry := fun word =>
  if word = "take" then
    [{ word := "take", word_type := WordType.VERB, canonical := some "take" }]
  else []

/-- Parser with no vocabulary and no registered syntax patterns (the
constructor leaves the pattern list empty when `syntax_rules` is falsy). -/
def stEmpty : ParserState :=
  { vocabulary_entries := noVocab, syntax_patterns := [] }

/-- Parser with one registered pattern. -/
def stOnePattern : ParserState :=
  { vocabulary_entries := noVocab,
    syntax_patterns := [{ pattern := "VERB", verb := "*", slots := [] }] }

/-- Parser knowing the verb "take", with no registered patterns. -/
def stTake : ParserState :=
  { vocabulary_entries := takeVocab, syntax_patterns := [] }

/-- A world where entity `d` sits inside entity `e` (so `d` is a
descendant of `e`). -/
def worldCycle : World := fun x =>
  if x = "e" then { contents := ["d"] }
  else if x = "d" then { location := some "e" }
  else {}

/-- A dark room (`light_needed`, no lit light source) containing a plain
object and the player. -/
def worldDark : World := fun x =>
  if x = "lounge" then { isRoom := true, light_needed := true, contents := ["candle", "player"] }
  else if x = "candle" then { location := some "lounge" }
  else if x = "player" then { location := some "lounge" }
  else {}

/-- A room holding an entity flagged HIDDEN plus a player whose inventory
holds an entity flagged INVISIBLE. -/
def worldHidden : World := fun x =>
  if x = "study" then { isRoom := true, contents := ["statue", "player"] }
  else if x = "statue" then { location := some "study", flags := ObjectFlag.HIDDEN }
  else if x = "player" then { location := some "study", contents := ["ghost"] }
  else if x = "ghost" then { location := some "player", flags := ObjectFlag.INVISIBLE }
  else {}

/-- Two entities named "key" in the player's room; `key1` is flagged
TAKEABLE but also SACRED (so `can_take` is false), `key2` has no flags. -/
def worldKeys : World := fun x =>
  if x = "hall" then { isRoom := true, contents := ["key1", "key2", "player"] }
  else if x = "key1" then
    { name := "key", location := some "hall",
      flags := ObjectFlag.TAKEABLE ||| ObjectFlag.SACRED }
  else if x = "key2" then { name := "key", location := some "hall" }
  else if x = "player" then { location := some "hall" }
  else {}

/-- Two entities named "key" in the player's room; only `key1` can be
taken (`TAKEABLE`, not `SACRED`). -/
def worldKeysTake : World := fun x =>
  if x = "hall" then { isRoom := true, contents := ["key1", "key2", "player"] }
  else if x = "key1" then
    { name := "key", location := some "hall", flags := ObjectFlag.TAKEABLE }
  else if x = "key2" then { name := "key", location := some "hall" }
  else if x = "player" then { location := some "hall" }
  else {}

/-- A coin inside a box, and an (implicit, empty) shelf to move it to. -/
def worldMove : World := fun x =>
  if x = "box" then { contents := ["coin"] }
  else if x = "coin" then { location := some "box" }
  else {}

/-! ## Spec-side readings used by amended claims -/

/-- A token with empty text, used as a harmless `getD` default. -/
def dummyToken : Token := { text := "" }

/-- The first token classified as a verb, if any — the verb
`_basic_parse` actually selects when one exists. -/
def first_verb_token : List Token → Option Token
  | [] => none
  | t :: ts =>
      if t.word_type = some WordType.VERB then some t else first_verb_token ts

/-- The tokens strictly after the first verb-classified token. -/
def after_verb : List Token → List Token
  | [] => []
  | t :: ts =>
      if t.word_type = some WordType.VERB then ts else after_verb ts

/-- The first preposition-classified token of a list together with
everything after it. -/
def after_first_prep : List Token → Option (Token × List Token)
  | [] => none
  | t :: ts =>
      if t.word_type = some WordType.PREPOSITION then some (t, ts)
      else after_first_prep ts

section MoveLemmas

theorem updateObj_same (w : World) (x : String) (o : Obj) : updateObj w x o x = o := by
  simp [updateObj]

theorem updateObj_other (w : World) (x y : String) (o : Obj) (h : y ≠ x) :
    updateObj w x o y = w y := by
  simp [updateObj, h]

theorem removeFromOld_location (w : World) (s y : String) :
    (removeFromOld w s y).location = (w y).location := by
  unfold removeFromOld
  cases hL : (w s).location with
  | none => rfl
  | some L =>
      by_cases hm : s ∈ (w L).contents
      · simp only [hm, if_pos]
        by_cases hy : y = L
        · subst hy; rw [updateObj_same]
        · rw [updateObj_other _ _ _ _ hy]
      · simp [hm]

theorem setLoc_contents (w : World) (s : String) (nl : Option String) (y : String) :
    (setLoc w s nl y).contents = (w y).contents := by
  unfold setLoc
  by_cases hy : y = s
  · subst hy; rw [updateObj_same]
  · rw [updateObj_other _ _ _ _ hy]

theorem setLoc_location_self (w : World) (s : String) (nl : Option String) :
    (setLoc w s nl s).location = nl := by
  unfold setLoc; rw [updateObj_same]

theorem addToNew_location (w : World) (s : String) (nl : Option String) (y : String) :
    (addToNew w s nl y).location = (w y).location := by
  unfold addToNew
  cases nl with
  | none => rfl
  | some N =>
      by_cases hm : s ∈ (w N).contents
      · simp [hm]
      · simp only [hm, if_neg, Bool.false_eq_true, not_false_eq_true]
        by_cases hy : y = N
        · subst hy; rw [updateObj_same]
        · rw [updateObj_other _ _ _ _ hy]

theorem removeFromOld_count_le (w : World) (s y : String) :
    ((removeFromOld w s y).contents.count s) ≤ (w y).contents.count s := by
  unfold removeFromOld
  cases hL : (w s).location with
  | none => exact Nat.le_refl _
  | some L =>
      by_cases hm : s ∈ (w L).contents
      · simp only [hm, if_pos]
        by_cases hy : y = L
        · subst hy
          rw [updateObj_same]
          simp only [List.count_erase_self]
          omega
        · rw [updateObj_other _ _ _ _ hy]
      · simp [hm]

theorem removeFromOld_prev (w : World) (s p : String)
    (hp : (w s).location = some p) (hc : (w p).contents.count s ≤ 1) :
    s ∉ (removeFromOld w s p).contents := by
  unfold removeFromOld
  rw [hp]
  by_cases hm : s ∈ (w p).contents
  · simp only [hm, if_pos, updateObj_same]
    have h1 : 1 ≤ (w p).contents.count s := List.one_le_count_iff.mpr hm
    have : ((w p).contents.erase s).count s = 0 := by
      rw [List.count_erase_self]
      omega
    exact List.count_eq_zero.mp this
  · simp [hm]

/-- After `move_to(X)`, `E.location` is `X` — with no assumption at all. -/
theorem move_to_sets_location (w : World) (e x : String) :
    ((move_to w e (some x)) e).location = some x := by
  unfold move_to
  rw [addToNew_location, setLoc_location_self]

/-- After `move_to(X)`, X's contents hold E exactly once, provided E
occurred at most once there beforehand (the bidirectional-consistency
invariant of the data model). -/
theorem move_to_count_one (w : World) (e x : String)
    (hc : (w x).contents.count e ≤ 1) :
    (((move_to w e (some x))) x).contents.count e = 1 := by
  unfold move_to
  have hble : ((setLoc (removeFromOld w e) e (some x)) x).contents.count e ≤ 1 := by
    rw [setLoc_contents]
    exact Nat.le_trans (removeFromOld_count_le w e x) hc
  unfold addToNew
  by_cases hm : e ∈ ((setLoc (removeFromOld w e) e (some x)) x).contents
  · have h1 : 1 ≤ ((setLoc (removeFromOld w e) e (some x)) x).contents.count e :=
      List.one_le_count_iff.mpr hm
    simp only [hm, if_pos]
    omega
  · simp only [hm, if_neg, not_false_eq_true, updateObj_same]
    rw [List.count_append]
    have h0 : ((setLoc (removeFromOld w e) e (some x)) x).contents.count e = 0 :=
      List.count_eq_zero.mpr hm
    simp [h0]

/-- After `move_to(X)`, the previous owner (when distinct from X) no
longer holds E, provided it held E at most once beforehand. -/
theorem move_to_prev_gone (w : World) (e x p : String)
    (hp : (w e).location = some p) (hne : p ≠ x)
    (hc : (w p).contents.count e ≤ 1) :
    e ∉ ((move_to w e (some x)) p).contents := by
  unfold move_to
  have hgone : e ∉ ((setLoc (removeFromOld w e) e (some x)) p).contents := by
    rw [setLoc_contents]
    exact removeFromOld_prev w e p hp hc
  unfold addToNew
  by_cases hm : e ∈ ((setLoc (removeFromOld w e) e (some x)) x).contents
  · simpa [hm] using hgone
  · simp only [hm, if_neg, not_false_eq_true]
    rw [updateObj_other _ _ _ _ hne]
    exact hgone

end MoveLemmas

section FlagLemmas

/-- `x &&& 2^i` keeps exactly bit `i`. -/
theorem land_two_pow (x i : Nat) :
    x &&& 2 ^ i = if x.testBit i then 2 ^ i else 0 := by
  apply Nat.eq_of_testBit_eq
  intro j
  rw [Nat.testBit_and]
  by_cases h : i = j
  · subst h
    cases hx : x.testBit i <;> simp [hx, Nat.testBit_two_pow_self]
  · have h2 : (2 ^ i).testBit j = false := Nat.testBit_two_pow_of_ne h
    cases hx : x.testBit i <;> simp [h2, Nat.testBit_two_pow_of_ne h]

theorem has_flag_two_pow (o : Obj) (i : Nat) :
    has_flag o (2 ^ i) = o.flags.testBit i := by
  unfold has_flag
  rw [land_two_pow]
  cases h : o.flags.testBit i <;> simp [h, (Nat.two_pow_pos i).ne']

end FlagLemmas

section FlagClaims

theorem has_flag_set_self (o : Obj) (i : Nat) :
    has_flag (set_flag o (2 ^ i)) (2 ^ i) = true := by
  rw [has_flag_two_pow]
  simp [set_flag, Nat.testBit_or, Nat.testBit_two_pow_self]

theorem testBit_ALL (i : Nat) : ObjectFlag.ALL.testBit i = decide (i < 28) := by
  have h : ObjectFlag.ALL = 2 ^ 28 - 1 := rfl
  rw [h, Nat.testBit_two_pow_sub_one]

theorem has_flag_clear_self (o : Obj) (i : Nat) (hi : i < 28) :
    has_flag (clear_flag o (2 ^ i)) (2 ^ i) = false := by
  rw [has_flag_two_pow]
  simp [clear_flag, Nat.testBit_and, Nat.testBit_xor, testBit_ALL,
    Nat.testBit_two_pow_self, hi]

theorem has_flag_set_other (o : Obj) (i j : Nat) (hij : i ≠ j) :
    has_flag (set_flag o (2 ^ i)) (2 ^ j) = has_flag o (2 ^ j) := by
  rw [has_flag_two_pow, has_flag_two_pow]
  simp [set_flag, Nat.testBit_or, Nat.testBit_two_pow_of_ne hij]

theorem has_flag_clear_other (o : Obj) (i j : Nat) (hij : i ≠ j) (hj : j < 28) :
    has_flag (clear_flag o (2 ^ i)) (2 ^ j) = has_flag o (2 ^ j) := by
  rw [has_flag_two_pow, has_flag_two_pow]
  simp [clear_flag, Nat.testBit_and, Nat.testBit_xor, testBit_ALL,
    Nat.testBit_two_pow_of_ne hij, hj]

/-- C10: for distinct flag bits `f = 2^i` and `g = 2^j` of the 28-bit
flag enum, `set_flag f` makes `has_flag f` true and `clear_flag f` makes
it false; both leave `has_flag g` and every non-flag field (location,
contents, properties, synonyms, adjectives) unchanged. -/
theorem flag_ops_isolated (o : Obj) (i j : Nat)
    (hi : i < 28) (hj : j < 28) (hij : i ≠ j) :
    has_flag (set_flag o (2 ^ i)) (2 ^ i) = true ∧
    has_flag (clear_flag o (2 ^ i)) (2 ^ i) = false ∧
    has_flag (set_flag o (2 ^ i)) (2 ^ j) = has_flag o (2 ^ j) ∧
    has_flag (clear_flag o (2 ^ i)) (2 ^ j) = has_flag o (2 ^ j) ∧
    ((set_flag o (2 ^ i)).location = o.location ∧
     (set_flag o (2 ^ i)).contents = o.contents ∧
     (set_flag o (2 ^ i)).properties = o.properties ∧
     (set_flag o (2 ^ i)).synonyms = o.synonyms ∧
     (set_flag o (2 ^ i)).adjectives = o.adjectives) ∧
    ((clear_flag o (2 ^ i)).location = o.location ∧
     (clear_flag o (2 ^ i)).contents = o.contents ∧
     (clear_flag o (2 ^ i)).properties = o.properties ∧
     (clear_flag o (2 ^ i)).synonyms = o.synonyms ∧
     (clear_flag o (2 ^ i)).adjectives = o.adjectives) :=
  ⟨has_flag_set_self o i, has_flag_clear_self o i hi,
   has_flag_set_other o i j hij, has_flag_clear_other o i j hij hj,
   ⟨rfl, rfl, rfl, rfl, rfl⟩, ⟨rfl, rfl, rfl, rfl, rfl⟩⟩

/-- Witness for C10 at the TAKEABLE (bit 0) and CONTAINER (bit 1) flags
of a concrete object. -/
theorem flag_ops_isolated_witness :
    (0 : Nat) < 28 ∧ (1 : Nat) < 28 ∧ (0 : Nat) ≠ 1 ∧
    (has_flag (set_flag { flags := 2 } (2 ^ 0)) (2 ^ 0) = true ∧
     has_flag (clear_flag { flags := 2 } (2 ^ 0)) (2 ^ 0) = false ∧
     has_flag (set_flag { flags := 2 } (2 ^ 0)) (2 ^ 1) =
       has_flag ({ flags := 2 } : Obj) (2 ^ 1) ∧
     has_flag (clear_flag { flags := 2 } (2 ^ 0)) (2 ^ 1) =
       has_flag ({ flags := 2 } : Obj) (2 ^ 1) ∧
     ((set_flag { flags := 2 } (2 ^ 0)).location = ({ flags := 2 } : Obj).location ∧
      (set_flag { flags := 2 } (2 ^ 0)).contents = ({ flags := 2 } : Obj).contents ∧
      (set_flag { flags := 2 } (2 ^ 0)).properties = ({ flags := 2 } : Obj).properties ∧
      (set_flag { flags := 2 } (2 ^ 0)).synonyms = ({ flags := 2 } : Obj).synonyms ∧
      (set_flag { flags := 2 } (2 ^ 0)).adjectives = ({ flags := 2 } : Obj).adjectives) ∧
     ((clear_flag { flags := 2 } (2 ^ 0)).location = ({ flags := 2 } : Obj).location ∧
      (clear_flag { flags := 2 } (2 ^ 0)).contents = ({ flags := 2 } : Obj).contents ∧
      (clear_flag { flags := 2 } (2 ^ 0)).properties = ({ flags := 2 } : Obj).properties ∧
      (clear_flag { flags := 2 } (2 ^ 0)).synonyms = ({ flags := 2 } : Obj).synonyms ∧
      (clear_flag { flags := 2 } (2 ^ 0)).adjectives = ({ flags := 2 } : Obj).adjectives)) :=
  ⟨by decide, by decide, by decide,
   flag_ops_isolated { flags := 2 } 0 1 (by decide) (by decide) (by decide)⟩

end FlagClaims

section MoveClaims

/-- C5: immediately after `E.move_to(X)`, `E.location` is `X`, X's
contents hold E exactly once, and a previous owner distinct from X no
longer holds E — given the bidirectional-consistency invariant that no
contents list held E more than once beforehand. -/
theorem move_to_postcondition (w : World) (e x : String)
    (h1 : (w x).contents.count e ≤ 1)
    (h2 : ∀ p, (w e).location = some p → (w p).contents.count e ≤ 1) :
    ((move_to w e (some x)) e).location = some x ∧
    ((move_to w e (some x)) x).contents.count e = 1 ∧
    ∀ p, (w e).location = some p → p ≠ x →
      e ∉ ((move_to w e (some x)) p).contents :=
  ⟨move_to_sets_location w e x, move_to_count_one w e x h1,
   fun p hp hne => move_to_prev_gone w e x p hp hne (h2 p hp)⟩

/-- Witness for C5: moving the coin from the box onto the shelf. -/
theorem move_to_postcondition_witness :
    (worldMove "shelf").contents.count "coin" ≤ 1 ∧
    (((move_to worldMove "coin" (some "shelf")) "coin").location = some "shelf" ∧
     ((move_to worldMove "coin" (some "shelf")) "shelf").contents.count "coin" = 1 ∧
     ∀ p, (worldMove "coin").location = some p → p ≠ "shelf" →
       "coin" ∉ ((move_to worldMove "coin" (some "shelf")) p).contents) :=
  ⟨by decide,
   move_to_postcondition worldMove "coin" "shelf" (by decide)
     (fun p hp => by
       have hbox : (worldMove "coin").location = some "box" := by decide
       rw [hbox] at hp
       injection hp with h
       subst h
       decide)⟩

/-- C1 counterexample: in `worldCycle`, `d` is a descendant of `e`, yet
`e.move_to(d)` raises nothing and is not a no-op — it changes `e`'s
location to `d` and appends `e` to `d`'s contents (the source has no
cycle check and defines no ContainmentCycle error). -/
theorem move_to_cycle_counterexample :
    locIter worldCycle 1 "d" = some "e" ∧
    ((move_to worldCycle "e" (some "d")) "e").location = some "d" ∧
    "e" ∈ ((move_to worldCycle "e" (some "d")) "d").contents ∧
    ((move_to worldCycle "e" (some "d")) "e").location ≠ (worldCycle "e").location := by
  decide

/-- C1 (amended): `E.move_to(D)` with D a descendant of E performs no
cycle check and succeeds like any other move — E's location becomes D
and E is stored once in D's contents (creating a containment cycle). -/
theorem move_to_descendant_succeeds (w : World) (e d : String) (n : Nat)
    (_hdesc : locIter w (n + 1) d = some e)
    (hc : (w d).contents.count e ≤ 1) :
    ((move_to w e (some d)) e).location = some d ∧
    ((move_to w e (some d)) d).contents.count e = 1 :=
  ⟨move_to_sets_location w e d, move_to_count_one w e d hc⟩

/-- Witness for the amended C1 on `worldCycle`. -/
theorem move_to_descendant_succeeds_witness :
    locIter worldCycle 1 "d" = some "e" ∧
    (worldCycle "d").contents.count "e" ≤ 1 ∧
    (((move_to worldCycle "e" (some "d")) "e").location = some "d" ∧
     ((move_to worldCycle "e" (some "d")) "d").contents.count "e" = 1) :=
  ⟨by decide, by decide,
   move_to_descendant_succeeds worldCycle "e" "d" 0 (by decide) (by decide)⟩

end MoveClaims

section ScopeClaims

theorem innerFold_spec (l : List String) (acc : List String) (w : World) :
    (l.foldl
      (fun st2 inner =>
        if is_visible st2.2 inner then (st2.1 ++ [inner], st2.2) else st2)
      (acc, w)) =
    (acc ++ l.filter (fun inner => is_visible w inner), w) := by
  induction l generalizing acc with
  | nil => simp
  | cons a l ih =>
      by_cases h : is_visible w a
      · simp only [List.foldl_cons, h, if_pos, List.filter_cons_of_pos]
        rw [ih]
        simp
      · simp only [List.foldl_cons, h, if_neg, List.filter_cons_of_neg,
          Bool.false_eq_true, not_false_eq_true]
        rw [ih]

theorem visitObj_spec (st : List String × World) (obj : String) :
    visitObj st obj = (st.1 ++ visible_entry st.2 obj, st.2) := by
  obtain ⟨acc, w⟩ := st
  unfold visitObj visible_entry
  by_cases h1 : is_visible w obj && obj != "player"
  · by_cases h2 : has_flag (w obj) ObjectFlag.CONTAINER &&
        (has_flag (w obj) ObjectFlag.OPEN || has_flag (w obj) ObjectFlag.TRANSPARENT)
    · simp [h1, h2, innerFold_spec]
    · simp [h1, h2]
  · simp [h1]

theorem outerFold_spec (l : List String) (acc : List String) (w : World) :
    l.foldl visitObj (acc, w) = (acc ++ l.flatMap (visible_entry w), w) := by
  induction l generalizing acc with
  | nil => simp
  | cons a l ih =>
      rw [List.foldl_cons, visitObj_spec]
      simp only []
      rw [ih]
      simp

/-- The state-threaded scope resolver computes the pure list and returns
the heap unchanged. -/
theorem get_visible_objects_st_eq (w : World) :
    get_visible_objects_st w = (get_visible_objects w, w) := by
  unfold get_visible_objects_st get_visible_objects
  cases hcr : get_current_room w with
  | none => simp
  | some r => simp [outerFold_spec]

/-- C9: scope resolution is idempotent and read-only — the call leaves
the heap unchanged, and running it again on the resulting heap produces
the identical ordered list. -/
theorem get_visible_objects_idempotent (w : World) :
    (get_visible_objects_st w).2 = w ∧
    (get_visible_objects_st ((get_visible_objects_st w).2)).1 =
      (get_visible_objects_st w).1 := by
  constructor
  · rw [get_visible_objects_st_eq]
  · rw [get_visible_objects_st_eq]
    rw [get_visible_objects_st_eq]

theorem setLightNeeded_flags (w : World) (r : String) (b : Bool) (y : String) :
    ((setLightNeeded w r b) y).flags = (w y).flags := by
  unfold setLightNeeded updateObj
  by_cases h : y = r
  · subst h; simp
  · simp [h]

theorem setLightNeeded_location (w : World) (r : String) (b : Bool) (y : String) :
    ((setLightNeeded w r b) y).location = (w y).location := by
  unfold setLightNeeded updateObj
  by_cases h : y = r
  · subst h; simp
  · simp [h]

theorem setLightNeeded_contents (w : World) (r : String) (b : Bool) (y : String) :
    ((setLightNeeded w r b) y).contents = (w y).contents := by
  unfold setLightNeeded updateObj
  by_cases h : y = r
  · subst h; simp
  · simp [h]

theorem setLightNeeded_isRoom (w : World) (r : String) (b : Bool) (y : String) :
    ((setLightNeeded w r b) y).isRoom = (w y).isRoom := by
  unfold setLightNeeded updateObj
  by_cases h : y = r
  · subst h; simp
  · simp [h]

theorem setLightNeeded_has_flag (w : World) (r : String) (b : Bool) (y : String) (f : Nat) :
    has_flag ((setLightNeeded w r b) y) f = has_flag (w y) f := by
  unfold has_flag
  rw [setLightNeeded_flags]

theorem setLightNeeded_is_visible (w : World) (r : String) (b : Bool) (x : String) :
    is_visible (setLightNeeded w r b) x = is_visible w x := by
  unfold is_visible
  rw [setLightNeeded_has_flag, setLightNeeded_location]
  cases hl : (w x).location with
  | none => rfl
  | some l => simp only [setLightNeeded_has_flag]

theorem setLightNeeded_gcr (w : World) (r : String) (b : Bool) :
    get_current_room (setLightNeeded w r b) = get_current_room w := by
  unfold get_current_room
  rw [setLightNeeded_location]
  cases hl : (w "player").location with
  | none => rfl
  | some l => simp only [setLightNeeded_isRoom]

theorem setLightNeeded_visible_entry (w : World) (r : String) (b : Bool) (obj : String) :
    visible_entry (setLightNeeded w r b) obj = visible_entry w obj := by
  unfold visible_entry
  rw [setLightNeeded_is_visible, setLightNeeded_has_flag, setLightNeeded_has_flag,
    setLightNeeded_has_flag, setLightNeeded_contents]
  simp only [setLightNeeded_is_visible]

/-- C2 (amended): `get_visible_objects` never consults darkness — its
result is unchanged by any rewrite of a room's `light_needed`
declaration, so a dark room yields the same (generally non-empty) scope
as the lit one; `is_dark` is only consulted by `move_player`. -/
theorem gvo_ignores_darkness (w : World) (r : String) (b : Bool) :
    get_visible_objects (setLightNeeded w r b) = get_visible_objects w := by
  have hfn : visible_entry (setLightNeeded w r b) = visible_entry w :=
    funext (setLightNeeded_visible_entry w r b)
  unfold get_visible_objects
  rw [setLightNeeded_gcr, hfn]
  cases hcr : get_current_room w with
  | none => simp only [setLightNeeded_contents]
  | some room => simp only [setLightNeeded_contents]

/-- C2 counterexample: `worldDark`'s lounge is dark (`light_needed` and
no lit light source), yet scope resolution returns the candle, not the
empty list. -/
theorem dark_room_scope_not_empty :
    (worldDark "lounge").light_needed = true ∧
    is_dark 3 worldDark "lounge" = true ∧
    get_current_room worldDark = some "lounge" ∧
    get_visible_objects worldDark = ["candle"] ∧
    get_visible_objects worldDark ≠ [] := by decide

theorem invisible_not_visible (w : World) (e : String)
    (h : has_flag (w e) ObjectFlag.INVISIBLE = true) :
    is_visible w e = false := by
  unfold is_visible
  simp [h]

/-- C4 (amended): an entity flagged INVISIBLE is excluded from the
room-derived portion of scope resolution, so it can only appear in the
result through the player's inventory, which is appended with no
visibility filtering; the HIDDEN flag is not consulted at all. -/
theorem invisible_only_via_inventory (w : World) (e : String)
    (hinv : has_flag (w e) ObjectFlag.INVISIBLE = true)
    (hmem : e ∈ get_visible_objects w) :
    e ∈ (w "player").contents := by
  unfold get_visible_objects at hmem
  rcases List.mem_append.mp hmem with h | h
  · exfalso
    cases hcr : get_current_room w with
    | none => rw [hcr] at h; simp at h
    | some r =>
        rw [hcr] at h
        obtain ⟨obj, _hobj, hin⟩ := List.mem_flatMap.mp h
        unfold visible_entry at hin
        by_cases hv : is_visible w obj && obj != "player"
        · rw [if_pos hv] at hin
          rcases List.mem_cons.mp hin with h1 | h1
          · subst h1
            rw [invisible_not_visible w e hinv] at hv
            simp at hv
          · by_cases hc : has_flag (w obj) ObjectFlag.CONTAINER &&
                (has_flag (w obj) ObjectFlag.OPEN ||
                 has_flag (w obj) ObjectFlag.TRANSPARENT)
            · rw [if_pos hc] at h1
              have := (List.mem_filter.mp h1).2
              rw [invisible_not_visible w e hinv] at this
              exact Bool.false_ne_true this
            · rw [if_neg hc] at h1
              exact List.not_mem_nil e h1
        · rw [if_neg hv] at hin
          exact List.not_mem_nil e hin
  · exact h

/-- Witness for the amended C4: the invisible ghost is in scope only
because it sits in the player's inventory. -/
theorem invisible_only_via_inventory_witness :
    has_flag (worldHidden "ghost") ObjectFlag.INVISIBLE = true ∧
    "ghost" ∈ get_visible_objects worldHidden ∧
    "ghost" ∈ (worldHidden "player").contents :=
  ⟨by decide, by decide,
   invisible_only_via_inventory worldHidden "ghost" (by decide) (by decide)⟩

/-- C4 counterexample: the HIDDEN statue standing in the room and the
INVISIBLE ghost carried by the player both appear in scope resolution,
refuting "invisible or hidden entities are always excluded". -/
theorem hidden_invisible_in_scope_counterexample :
    has_flag (worldHidden "statue") ObjectFlag.HIDDEN = true ∧
    has_flag (worldHidden "ghost") ObjectFlag.INVISIBLE = true ∧
    get_visible_objects worldHidden = ["statue", "ghost"] ∧
    "statue" ∈ get_visible_objects worldHidden ∧
    "ghost" ∈ get_visible_objects worldHidden := by decide

end ScopeClaims

section ParserClaims

/-- C8: on empty or whitespace-only input, `parse` reports failure with
the blank-input message and leaves the stored last command and last
parse result (the "again" replay state) untouched. -/
theorem empty_input_parse (st : ParserState) (input : String) (context : Option String)
    (h : pyStrip input = "") :
    (parse st input context).1.is_valid = false ∧
    (parse st input context).1.error_message = some "Please enter a command." ∧
    (parse st input context).2.last_command = st.last_command ∧
    (parse st input context).2.last_parse_result = st.last_parse_result := by
  unfold parse
  rw [if_pos (Or.inr h)]
  exact ⟨rfl, rfl, rfl, rfl⟩

/-- Witness for C8 on the whitespace-only input. -/
theorem empty_input_parse_witness :
    pyStrip "   " = "" ∧
    ((parse stEmpty "   " none).1.is_valid = false ∧
     (parse stEmpty "   " none).1.error_message = some "Please enter a command." ∧
     (parse stEmpty "   " none).2.last_command = stEmpty.last_command ∧
     (parse stEmpty "   " none).2.last_parse_result = stEmpty.last_parse_result) :=
  ⟨by decide, empty_input_parse stEmpty "   " none (by decide)⟩

theorem match_patterns_direction (st : ParserState) (t : Token)
    (hp : st.syntax_patterns ≠ []) (hd : t.word_type = some WordType.DIRECTION) :
    match_patterns st [t] =
      { is_valid := true, verb := some "go",
        direct_object := some (t.canonical_form.getD t.text), tokens := [t] } := by
  unfold match_patterns
  cases hps : st.syntax_patterns with
  | nil => exact absurd hps hp
  | cons pat rest => simp [matchLoop, direction_shortcut, hd]

/-- C3 (amended): when at least one syntax pattern is registered, any
input that tokenizes and classifies to a single DIRECTION token parses
to verb "go" with the canonical direction as direct object; with zero
registered patterns the in-loop short-circuit never runs and the
fallback yields the canonical direction as the verb instead. -/
theorem single_direction_parse (st : ParserState) (context : Option String)
    (input : String) (t : Token)
    (hne : pyStrip input ≠ "")
    (hg : pyLower (pyStrip input) ≠ "g")
    (hagain : pyLower (pyStrip input) ≠ "again")
    (htok : identify_word_types { st with current_context := context }
              (tokenize (shortcut_expand (pyStrip input))) = [t])
    (hd : t.word_type = some WordType.DIRECTION)
    (hp : st.syntax_patterns ≠ []) :
    (parse st input context).1 =
      { is_valid := true, verb := some "go",
        direct_object := some (t.canonical_form.getD t.text), tokens := [t],
        raw_input := pyStrip input } := by
  have hinput : ¬(input = "" ∨ pyStrip input = "") := by
    rintro (h | h)
    · apply hne
      rw [h]
      rfl
    · exact hne h
  have hagain2 : ¬(pyLower (pyStrip input) = "g" ∨ pyLower (pyStrip input) = "again") := by
    rintro (h | h)
    · exact hg h
    · exact hagain h
  have hlen : (tokenize (shortcut_expand (pyStrip input))).length = 1 := by
    have h1 := congrArg List.length htok
    simpa [identify_word_types] using h1
  have hnonempty : (tokenize (shortcut_expand (pyStrip input))).isEmpty = false := by
    cases hts : tokenize (shortcut_expand (pyStrip input)) with
    | nil => rw [hts] at hlen; simp at hlen
    | cons a l => rfl
  have hmp := match_patterns_direction
    { st with current_context := context } t hp hd
  unfold parse
  rw [if_neg hinput, if_neg hagain2]
  simp only [hnonempty, Bool.false_eq_true, if_neg, not_false_eq_true, htok, hmp]
  simp

/-- Witness for the amended C3: input "north" with one registered
pattern parses to go/north. -/
theorem single_direction_parse_witness :
    pyStrip "north" ≠ "" ∧
    pyLower (pyStrip "north") ≠ "g" ∧
    pyLower (pyStrip "north") ≠ "again" ∧
    identify_word_types { stOnePattern with current_context := none }
        (tokenize (shortcut_expand (pyStrip "north"))) =
      [⟨"north", some WordType.DIRECTION, some "north", []⟩] ∧
    (⟨"north", some WordType.DIRECTION, some "north", []⟩ : Token).word_type =
      some WordType.DIRECTION ∧
    stOnePattern.syntax_patterns ≠ [] ∧
    (parse stOnePattern "north" none).1 =
      { is_valid := true, verb := some "go", direct_object := some "north",
        tokens := [⟨"north", some WordType.DIRECTION, some "north", []⟩],
        raw_input := "north" } :=
  ⟨by decide, by decide, by decide, by decide, by decide, by decide,
   single_direction_parse stOnePattern none "north"
     ⟨"north", some WordType.DIRECTION, some "north", []⟩
     (by decide) (by decide) (by decide) (by decide) (by decide) (by decide)⟩

/-- C3 counterexample: with zero registered syntax patterns (a state the
constructor produces when `syntax_rules` is empty), the single-token
direction input "north" does NOT parse to verb "go": the in-loop
short-circuit never runs, and the fallback returns verb "north" with no
direct object. -/
theorem direction_zero_patterns_counterexample :
    stEmpty.syntax_patterns = [] ∧
    (parse stEmpty "north" none).1.is_valid = true ∧
    (parse stEmpty "north" none).1.verb = some "north" ∧
    (parse stEmpty "north" none).1.verb ≠ some "go" ∧
    (parse stEmpty "north" none).1.direct_object = none := by decide

theorem findVerbAux_none (ts : List Token) (h : first_verb_token ts = none) :
    ∀ i, findVerbAux ts i = none := by
  induction ts with
  | nil => intro i; rfl
  | cons t tl ih =>
      intro i
      unfold first_verb_token at h
      unfold findVerbAux
      by_cases hv : t.word_type = some WordType.VERB
      · rw [if_pos hv] at h; exact absurd h (by simp)
      · rw [if_neg hv] at h
        rw [if_neg hv]
        exact ih h (i + 1)

theorem findVerbAux_some (ts : List Token) (vt : Token)
    (h : first_verb_token ts = some vt) :
    ∀ i, ∃ k, findVerbAux ts i = some (i + k, vt) ∧
      ts.drop (k + 1) = after_verb ts ∧ k < ts.length := by
  induction ts with
  | nil => exact absurd h (by simp [first_verb_token])
  | cons t tl ih =>
      intro i
      unfold first_verb_token at h
      by_cases hv : t.word_type = some WordType.VERB
      · rw [if_pos hv] at h
        injection h with h1
        refine ⟨0, ?_, ?_, ?_⟩
        · unfold findVerbAux
          rw [if_pos hv, h1]
          simp
        · simp [after_verb, hv]
        · simp
      · rw [if_neg hv] at h
        obtain ⟨k, hk1, hk2, hk3⟩ := ih h (i + 1)
        refine ⟨k + 1, ?_, ?_, ?_⟩
        · unfold findVerbAux
          rw [if_neg hv, hk1]
          congr 2
          omega
        · simp only [List.drop_succ_cons] at hk2 ⊢
          rw [hk2]
          simp [after_verb, hv]
        · simpa using Nat.succ_lt_succ hk3

theorem scanObjTokens_snd (l : List Token) :
    (scanObjTokens l).2 = after_first_prep l := by
  induction l with
  | nil => rfl
  | cons t tl ih =>
      unfold scanObjTokens after_first_prep
      by_cases hp : t.word_type = some WordType.PREPOSITION
      · rw [if_pos hp, if_pos hp]
      · rw [if_neg hp, if_neg hp]
        exact ih

/-- C6 (amended): when no registered pattern matched structurally, the
fallback `_basic_parse` marks the result valid, chooses as its verb the
first token classified VERB — falling back to token 0 only when no token
is classified VERB — and takes everything after the first preposition
that follows the verb as the indirect object (none when that preposition
is the final token). -/
theorem basic_parse_fallback (st : ParserState) (ts : List Token)
    (hne : ts ≠ [])
    (_hnm : (match_patterns st ts).is_valid = false) :
    (basic_parse ts).is_valid = true ∧
    (basic_parse ts).verb =
      some (((first_verb_token ts).getD (ts.headD dummyToken)).canonical_form.getD
        ((first_verb_token ts).getD (ts.headD dummyToken)).text) ∧
    (basic_parse ts).indirect_object =
      (match after_first_prep
          (match first_verb_token ts with
           | some _ => after_verb ts
           | none => ts.tail) with
       | some (_, after) => if after.isEmpty then none else resolve_object after
       | none => none) := by
  cases ts with
  | nil => exact absurd rfl hne
  | cons t0 tl =>
      cases hv : first_verb_token (t0 :: tl) with
      | none =>
          have hfv := findVerbAux_none _ hv 0
          refine ⟨?_, ?_, ?_⟩
          · unfold basic_parse
            rw [hfv]
            simp only [Option.getD_none]
            split
            · split <;> rfl
            · rfl
          · unfold basic_parse
            rw [hfv]
            simp only [Option.getD_none, List.headD_cons]
            split
            · split <;> rfl
            · rfl
          · unfold basic_parse
            rw [hfv]
            simp only [Option.getD_none, List.tail_cons]
            by_cases hlt : 0 < (t0 :: tl).length - 1
            · rw [if_pos hlt]
              have hscan2 : (scanObjTokens ((t0 :: tl).drop (0 + 1))).2 =
                  after_first_prep tl := by
                rw [scanObjTokens_snd]
                rfl
              rw [hscan2]
              cases happ : after_first_prep tl with
              | none => rfl
              | some pa =>
                  obtain ⟨p, after⟩ := pa
                  cases after <;> simp
            · rw [if_neg hlt]
              have htl : tl = [] := by
                simp only [List.length_cons] at hlt
                have : tl.length = 0 := by omega
                exact List.eq_nil_of_length_eq_zero this
              subst htl
              rfl
      | some vt =>
          obtain ⟨k, hk1, hk2, hk3⟩ := findVerbAux_some _ vt hv 0
          have hk1a : findVerbAux (t0 :: tl) 0 = some (k, vt) := by
            simpa using hk1
          refine ⟨?_, ?_, ?_⟩
          · unfold basic_parse
            rw [hk1a]
            simp only [Option.getD_some]
            split
            · split <;> rfl
            · rfl
          · unfold basic_parse
            rw [hk1a]
            simp only [Option.getD_some]
            split
            · split <;> rfl
            · rfl
          · unfold basic_parse
            rw [hk1a]
            simp only [Option.getD_some]
            by_cases hlt : k < (t0 :: tl).length - 1
            · rw [if_pos hlt]
              have hscan2 : (scanObjTokens ((t0 :: tl).drop (k + 1))).2 =
                  after_first_prep (after_verb (t0 :: tl)) := by
                rw [scanObjTokens_snd, hk2]
              rw [hscan2]
              cases happ : after_first_prep (after_verb (t0 :: tl)) with
              | none => rfl
              | some pa =>
                  obtain ⟨p, after⟩ := pa
                  cases after <;> simp
            · rw [if_neg hlt]
              have hdrop : (t0 :: tl).drop (k + 1) = [] := by
                rw [List.drop_eq_nil_iff]
                simp only [List.length_cons] at hlt ⊢
                omega
              rw [hdrop] at hk2
              rw [← hk2]
              rfl

/-- Witness for the amended C6 on the classified tokens of "box take". -/
theorem basic_parse_fallback_witness :
    ([⟨"box", some WordType.UNKNOWN, none, []⟩,
      ⟨"take", some WordType.VERB, some "take", []⟩] ≠ ([] : List Token)) ∧
    (match_patterns stTake
      [⟨"box", some WordType.UNKNOWN, none, []⟩,
       ⟨"take", some WordType.VERB, some "take", []⟩]).is_valid = false ∧
    ((basic_parse
        [⟨"box", some WordType.UNKNOWN, none, []⟩,
         ⟨"take", some WordType.VERB, some "take", []⟩]).is_valid = true ∧
     (basic_parse
        [⟨"box", some WordType.UNKNOWN, none, []⟩,
         ⟨"take", some WordType.VERB, some "take", []⟩]).verb = some "take" ∧
     (basic_parse
        [⟨"box", some WordType.UNKNOWN, none, []⟩,
         ⟨"take", some WordType.VERB, some "take", []⟩]).indirect_object = none) := by
  refine ⟨by decide, by decide, ?_⟩
  have h := basic_parse_fallback stTake
    [⟨"box", some WordType.UNKNOWN, none, []⟩,
     ⟨"take", some WordType.VERB, some "take", []⟩] (by decide) (by decide)
  exact ⟨h.1, h.2.1, h.2.2⟩

/-- C6 counterexample: on "box take" no pattern matches structurally
(none are registered), the fallback marks the result valid — but its
verb is "take", the token at index 1, not token 0 ("box"): the fallback
does not simply assume token 0 is the verb. -/
theorem fallback_verb_not_token0_counterexample :
    (match_patterns stTake (identify_word_types stTake (tokenize "box take"))).is_valid
      = false ∧
    (parse stTake "box take" none).1.is_valid = true ∧
    (parse stTake "box take" none).1.verb = some "take" ∧
    ((parse stTake "box take" none).1.tokens.headD dummyToken).text = "box" ∧
    (parse stTake "box take" none).1.verb ≠ some "box" := by decide

theorem ite_keep_ne_nil (cs f : List String)
    (h : (if !f.isEmpty then f else cs) = []) : cs = [] := by
  by_cases hf : f.isEmpty
  · simpa [hf] using h
  · rw [if_pos (by simp [hf])] at h
    exact absurd (by simp [h]) hf

theorem apply_context_ne_nil (w : World) (cs : List String) (ctx : String)
    (h : apply_context w cs ctx = []) : cs = [] := by
  unfold apply_context at h
  exact ite_keep_ne_nil cs _ h

/-- C7: the context filter of the disambiguator is kept only when it
leaves at least one candidate (full elimination keeps the previous set),
and with two visible, accessible candidates of which exactly one
satisfies `can_take`, context "take" deterministically returns that
one. -/
theorem context_filter_policy (fuel : Nat) (w : World) (word : String)
    (adjs : List String) (a b : String) (last : Option (List String))
    (hcand : find_candidates w word adjs = [a, b])
    (hva : is_visible w a = true) (hvb : is_visible w b = true)
    (haa : is_accessible fuel w a = true) (hab : is_accessible fuel w b = true)
    (hta : can_take (w a) = true) (htb : can_take (w b) = false) :
    (∀ cs ctx, apply_context w cs ctx = [] → cs = []) ∧
    (disambiguate fuel w word adjs (some "take") last).1 = some a := by
  refine ⟨fun cs ctx h => apply_context_ne_nil w cs ctx h, ?_⟩
  unfold disambiguate
  rw [hcand]
  simp [narrow, apply_context, List.filter, hva, hvb, haa, hab, hta, htb]

/-- Witness for C7 in `worldKeysTake`: of the two keys only `key1`
satisfies `can_take`, and "take" context selects it. -/
theorem context_filter_policy_witness :
    find_candidates worldKeysTake "key" [] = ["key1", "key2"] ∧
    is_visible worldKeysTake "key1" = true ∧
    is_visible worldKeysTake "key2" = true ∧
    is_accessible 2 worldKeysTake "key1" = true ∧
    is_accessible 2 worldKeysTake "key2" = true ∧
    can_take (worldKeysTake "key1") = true ∧
    can_take (worldKeysTake "key2") = false ∧
    ((∀ cs ctx, apply_context worldKeysTake cs ctx = [] → cs = []) ∧
     (disambiguate 2 worldKeysTake "key" [] (some "take") none).1 = some "key1") :=
  ⟨by decide, by decide, by decide, by decide, by decide, by decide, by decide,
   context_filter_policy 2 worldKeysTake "key" [] "key1" "key2" none
     (by decide) (by decide) (by decide) (by decide) (by decide)
     (by decide) (by decide)⟩

/-- C7 counterexample: in `worldKeys` exactly one of the two visible,
accessible keys is flagged takeable — but it is also SACRED, so the
"take" context filter (which tests `can_take`, not the TAKEABLE flag)
eliminates everything, the pre-context set is retained, and
disambiguation ends ambiguous (returns nothing) instead of returning the
takeable-flagged key. -/
theorem sacred_takeable_counterexample :
    has_flag (worldKeys "key1") ObjectFlag.TAKEABLE = true ∧
    has_flag (worldKeys "key2") ObjectFlag.TAKEABLE = false ∧
    is_visible worldKeys "key1" = true ∧
    is_visible worldKeys "key2" = true ∧
    is_accessible 2 worldKeys "key1" = true ∧
    is_accessible 2 worldKeys "key2" = true ∧
    find_candidates worldKeys "key" [] = ["key1", "key2"] ∧
    (disambiguate 2 worldKeys "key" [] (some "take") none).1 = none ∧
    (disambiguate 2 worldKeys "key" [] (some "take") none).1 ≠ some "key1" := by
  decide

end ParserClaims
